import Mathlib

/-
Verification of the CBLiteC utility wrapper (src/CBLiteC.c) against its
natural-language specification.

The wrapper sits on top of the Couchbase Lite C / Fleece engine.  The engine
itself is an external collaborator: the spec declares its on-disk format,
value encoding and transaction machinery out of scope and only relies on the
contract stated in the spec's "External Interfaces" section.  The embedding
below therefore models

  * Fleece values (FLValue) as an inductive datatype, with IEEE-754 binary64
    doubles carried as their 64-bit pattern (the wrapper never performs any
    floating-point arithmetic, it only moves values around);
  * caller-provided destination buffers as Lean lists whose current contents
    are visible, so that "leaves the output untouched" and "writes at most N
    bytes" are provable statements;
  * C pointers that may be NULL as Option-typed arguments, and out-pointers
    as Option-typed cells (none = NULL pointer, some x = pointer to a cell
    currently holding x);
  * the engine database, the wrapper's heap objects (database handles and
    sessions), engine reference counts, the engine-call event trace and the
    stderr log as one explicit World state for the lifecycle operations.

Every cblu_* definition is a direct translation of the corresponding C
function in src/CBLiteC.c.
-/

namespace CBLiteC

/-- Fleece numeric payload: the engine stores signed integers, unsigned
integers and IEEE-754 binary64 doubles (kept as their 64-bit pattern) under
the single public type tag kFLNumber. -/
inductive FLNumRep where
  | nInt (i : Int)
  | nUInt (u : Nat)
  | nDbl (bits : Nat)
deriving DecidableEq

/-- Fleece value model: null, boolean, number, UTF-8 string (as its byte
sequence), array, dictionary, and blob (content type bytes + content bytes).
Dictionaries are association lists from key to value. -/
inductive FLVal where
  | vNull
  | vBool (b : Bool)
  | vNum (n : FLNumRep)
  | vStr (bytes : List Nat)
  | vArr (elems : List FLVal)
  | vDict (entries : List (String × FLVal))
  | vBlob (contentType : List Nat) (content : List Nat)

/-- Association-list lookup; models FLDict_Get (NULL result = absent key). -/
def alookup {α : Type} : List (String × α) → String → Option α
  | [], _ => none
  | (k, v) :: t, key => if k = key then some v else alookup t key

/-- Association-list update; models the engine's FLMutableDict_SetXxx family:
replace the existing entry for the key or append a new one. -/
def aset {α : Type} : List (String × α) → String → α → List (String × α)
  | [], key, v => [(key, v)]
  | (k, w) :: t, key, v => if k = key then (key, v) :: t else (k, w) :: aset t key v

/-- Two's-complement reading of a 64-bit pattern as a signed integer;
models the C cast (int64_t)u applied by FLValue_AsInt to unsigned storage. -/
def toSigned64 (u : Nat) : Int :=
  let m : Nat := u % 2 ^ 64
  if m < 2 ^ 63 then (m : Int) else (m : Int) - 2 ^ 64

/-- Two's-complement 64-bit pattern of a signed integer; models the C cast
(uint64_t)i applied by FLValue_AsUnsigned to signed storage. -/
def toUnsigned64 (i : Int) : Nat := (i % (2 ^ 64 : Int)).toNat

/-- Sign bit of an IEEE-754 binary64 pattern. -/
def dblSignBit (b : Nat) : Bool := (b / 2 ^ 63) % 2 = 1

/-- Exponent field of an IEEE-754 binary64 pattern. -/
def dblExpField (b : Nat) : Nat := (b / 2 ^ 52) % 2 ^ 11

/-- Mantissa field of an IEEE-754 binary64 pattern. -/
def dblMantField (b : Nat) : Nat := b % 2 ^ 52

/-- Floor of the magnitude of the IEEE-754 binary64 value with pattern b.
Non-finite patterns are mapped to 0 (the C cast is undefined there; the
wrapper never depends on this case). -/
def dblMagFloor (b : Nat) : Nat :=
  let e := dblExpField b
  if e = 2047 then 0
  else if e = 0 then 0
  else
    let m := dblMantField b + 2 ^ 52
    if 1075 ≤ e then m * 2 ^ (e - 1075) else m / 2 ^ (1075 - e)

/-- Engine conversion of a binary64 pattern to int64 (truncation toward
zero), as performed by FLValue_AsInt on a stored double. -/
def dblToInt (b : Nat) : Int :=
  if dblSignBit b then - (dblMagFloor b : Int) else (dblMagFloor b : Int)

/-- Engine conversion of a binary64 pattern to uint64, as performed by
FLValue_AsUnsigned on a stored double (negative values map to 0 here; the C
cast is undefined for them). -/
def dblToUInt (b : Nat) : Nat :=
  if dblSignBit b then 0 else dblMagFloor b % 2 ^ 64

/-- IEEE-754 binary64 pattern of a natural-number magnitude, rounding to
nearest even; models the engine's int-to-double conversion. -/
def natToDblBits (m : Nat) : Nat :=
  if m = 0 then 0 else
  let p := Nat.log2 m
  if p ≤ 52 then
    (p + 1023) * 2 ^ 52 + (m * 2 ^ (52 - p) - 2 ^ 52)
  else
    let sh := p - 52
    let q := m / 2 ^ sh
    let r := m % 2 ^ sh
    let half := 2 ^ (sh - 1)
    let q2 := if half < r ∨ (r = half ∧ q % 2 = 1) then q + 1 else q
    if q2 = 2 ^ 53 then (p + 1024) * 2 ^ 52
    else (p + 1023) * 2 ^ 52 + (q2 - 2 ^ 52)

/-- IEEE-754 binary64 pattern of a signed integer (round to nearest even). -/
def intToDblBits (i : Int) : Nat :=
  if i < 0 then 2 ^ 63 + natToDblBits (-i).toNat else natToDblBits i.toNat

/-- Type test behind the C helper fl_is_number: v && FLValue_GetType(v) ==
kFLNumber, on the value a (possibly NULL) FLDict_Get produced. -/
def fl_is_number : Option FLVal → Bool
  | some (.vNum _) => true
  | _ => false

/-- Type test behind the C helper fl_is_string. -/
def fl_is_string : Option FLVal → Bool
  | some (.vStr _) => true
  | _ => false

/-- Test FLValue_GetType(v) == kFLArray, where v may be NULL (absent key);
FLValue_GetType(NULL) is kFLUndefined, never kFLArray. -/
def fl_is_array : Option FLVal → Bool
  | some (.vArr _) => true
  | _ => false

/-- Per-value numeric test, used element-wise by the array getters. -/
def isNumberV : FLVal → Bool
  | .vNum _ => true
  | _ => false

/-- Engine accessor FLValue_AsInt. -/
def flAsInt : FLVal → Int
  | .vNum (.nInt i) => i
  | .vNum (.nUInt u) => toSigned64 u
  | .vNum (.nDbl b) => dblToInt b
  | .vBool true => 1
  | _ => 0

/-- Engine accessor FLValue_AsUnsigned. -/
def flAsUnsigned : FLVal → Nat
  | .vNum (.nInt i) => toUnsigned64 i
  | .vNum (.nUInt u) => u % 2 ^ 64
  | .vNum (.nDbl b) => dblToUInt b
  | .vBool true => 1
  | _ => 0

/-- Engine accessor FLValue_AsDouble, producing a binary64 pattern. -/
def flAsDouble : FLVal → Nat
  | .vNum (.nDbl b) => b % 2 ^ 64
  | .vNum (.nInt i) => intToDblBits i
  | .vNum (.nUInt u) => natToDblBits (u % 2 ^ 64)
  | .vBool true => natToDblBits 1
  | _ => 0

/-- Zero test on a numeric payload (a double is zero iff its pattern with
the sign bit cleared is zero, covering +0.0 and -0.0). -/
def numIsZero : FLNumRep → Bool
  | .nInt i => i = 0
  | .nUInt u => u % 2 ^ 64 = 0
  | .nDbl b => (b % 2 ^ 64) % 2 ^ 63 = 0

/-- Engine accessor FLValue_AsBool: false for null, false, and numeric zero;
true otherwise. -/
def flAsBool : FLVal → Bool
  | .vNull => false
  | .vBool b => b
  | .vNum n => ! numIsZero n
  | _ => true

/-- Engine accessor FLValue_AsString restricted to string values (Fleece
returns the string's byte buffer; for a stored kFLString the buffer is never
NULL, so the wrapper's defensive null-buffer branch is unreachable and the
result is modeled as the byte list itself). -/
def flAsString : FLVal → List Nat
  | .vStr s => s
  | _ => []

/-- Engine accessor FLValue_AsArray restricted to array values. -/
def flAsArray : FLVal → List FLVal
  | .vArr xs => xs
  | _ => []

/-- Engine blob accessor (FLValue_GetBlob / FLValue_AsBlob): yields the
blob's content type and content for blob values, nothing otherwise. -/
def flAsBlob : FLVal → Option (List Nat × List Nat)
  | .vBlob ct c => some (ct, c)
  | _ => none

/-- Read-side document view: struct CBLU_DocR.  It owns an immutable
snapshot of the document's property dictionary, taken when the reader was
created (CBLDocument_Properties of the fetched document). -/
structure DocR where
  props : List (String × FLVal)

/-- Overwrite the front of a caller buffer with the given data, leaving the
rest of the buffer unchanged; models memcpy into the head of a buffer
(followed, when the data ends with a terminator byte, by the terminator
store). -/
def writeFront {α : Type} (buf data : List α) : List α :=
  data ++ buf.drop data.length

/-- The C for-loop of the array getters: for i in [0, n) set buf[i] :=
f (src[i]).  Out-of-range stores cannot occur for the in-contract calls the
claims quantify over (n is bounded by both the source and the buffer). -/
def copyLoop {α : Type} (src : List FLVal) (f : FLVal → α) : Nat → List α → List α
  | 0, buf => buf
  | i + 1, buf => (copyLoop src f i buf).set i (f (src.getD i .vNull))

/-- cblu_docr_has from src/CBLiteC.c. -/
def cblu_docr_has (d : Option DocR) (key : Option String) : Bool :=
  match d, key with
  | some dr, some k => (alookup dr.props k).isSome
  | _, _ => false

/-- cblu_docr_get_i64 from src/CBLiteC.c.  The out-pointer is an Option
cell: none is a NULL pointer, some x points at a cell currently holding x.
The result pairs the C return value with the cell's new state. -/
def cblu_docr_get_i64 (d : Option DocR) (key : Option String) (out : Option Int) :
    Bool × Option Int :=
  match d, key, out with
  | some dr, some k, some _ =>
    match alookup dr.props k with
    | some v => if isNumberV v then (true, some (flAsInt v)) else (false, out)
    | none => (false, out)
  | _, _, _ => (false, out)

/-- cblu_docr_get_u64 from src/CBLiteC.c. -/
def cblu_docr_get_u64 (d : Option DocR) (key : Option String) (out : Option Nat) :
    Bool × Option Nat :=
  match d, key, out with
  | some dr, some k, some _ =>
    match alookup dr.props k with
    | some v => if isNumberV v then (true, some (flAsUnsigned v)) else (false, out)
    | none => (false, out)
  | _, _, _ => (false, out)

/-- cblu_docr_get_f64 from src/CBLiteC.c; the double travels as its 64-bit
pattern. -/
def cblu_docr_get_f64 (d : Option DocR) (key : Option String) (out : Option Nat) :
    Bool × Option Nat :=
  match d, key, out with
  | some dr, some k, some _ =>
    match alookup dr.props k with
    | some v => if isNumberV v then (true, some (flAsDouble v)) else (false, out)
    | none => (false, out)
  | _, _, _ => (false, out)

/-- cblu_docr_get_bool from src/CBLiteC.c: accepts kFLBoolean or kFLNumber
and stores FLValue_AsBool of the value. -/
def cblu_docr_get_bool (d : Option DocR) (key : Option String) (out : Option Bool) :
    Bool × Option Bool :=
  match d, key, out with
  | some dr, some k, some _ =>
    match alookup dr.props k with
    | some (.vBool b) => (true, some (flAsBool (.vBool b)))
    | some (.vNum n) => (true, some (flAsBool (.vNum n)))
    | _ => (false, out)
  | _, _, _ => (false, out)

/-- cblu_docr_get_str from src/CBLiteC.c.  dst is the destination buffer's
current contents (none = NULL); the result pairs the returned byte count
with the buffer's new contents. -/
def cblu_docr_get_str (d : Option DocR) (key : Option String)
    (dst : Option (List Nat)) (dstSize : Nat) : Nat × Option (List Nat) :=
  match d, key, dst with
  | some dr, some k, some buf =>
    if dstSize = 0 then (0, some buf)
    else
      match alookup dr.props k with
      | some (.vStr s) =>
        let n := if s.length < dstSize - 1 then s.length else dstSize - 1
        (n, some (writeFront buf (s.take n ++ [0])))
      | _ => (0, some (writeFront buf [0]))
  | _, _, _ => (0, dst)

/-- cblu_docr_get_f64_array from src/CBLiteC.c. -/
def cblu_docr_get_f64_array (d : Option DocR) (key : Option String)
    (out : Option (List Nat)) (maxn : Nat) : Nat × Option (List Nat) :=
  match d, key, out with
  | some dr, some k, some buf =>
    if maxn = 0 then (0, some buf)
    else
      match alookup dr.props k with
      | some (.vArr xs) =>
        let n := if maxn < xs.length then maxn else xs.length
        (n, some (copyLoop xs (fun it => if isNumberV it then flAsDouble it else 0) n buf))
      | _ => (0, some buf)
  | _, _, _ => (0, out)

/-- cblu_docr_get_i64_array from src/CBLiteC.c. -/
def cblu_docr_get_i64_array (d : Option DocR) (key : Option String)
    (out : Option (List Int)) (maxn : Nat) : Nat × Option (List Int) :=
  match d, key, out with
  | some dr, some k, some buf =>
    if maxn = 0 then (0, some buf)
    else
      match alookup dr.props k with
      | some (.vArr xs) =>
        let n := if maxn < xs.length then maxn else xs.length
        (n, some (copyLoop xs (fun it => if isNumberV it then flAsInt it else 0) n buf))
      | _ => (0, some buf)
  | _, _, _ => (0, out)

/-- cblu_docr_get_blob from src/CBLiteC.c.  Returns (bytesCopied, new dst
contents, new contentTypeDst contents).  Note that the content-type buffer
is filled before the content emptiness check, exactly as in the source. -/
def cblu_docr_get_blob (d : Option DocR) (key : Option String)
    (dst : Option (List Nat)) (dstSize : Nat)
    (ctDst : Option (List Nat)) (ctSize : Nat) :
    Nat × Option (List Nat) × Option (List Nat) :=
  match d, key, dst with
  | some dr, some k, some buf =>
    if dstSize = 0 then (0, some buf, ctDst)
    else
      match (alookup dr.props k).bind flAsBlob with
      | some (ct, content) =>
        let ctOut : Option (List Nat) :=
          match ctDst with
          | some cbuf =>
            if 0 < ctSize then
              let m := if ct.length < ctSize - 1 then ct.length else ctSize - 1
              some (writeFront cbuf (ct.take m ++ [0]))
            else some cbuf
          | none => none
        if content.length = 0 then (0, some buf, ctOut)
        else
          let nCopy := if content.length < dstSize then content.length else dstSize
          (nCopy, some (writeFront buf (content.take nCopy)), ctOut)
      | none => (0, some buf, ctDst)
  | _, _, _ => (0, dst, ctDst)

/-- Write-side document builder: struct CBLU_DocW.  It owns a fresh mutable
document keyed by docId and that document's mutable root property
dictionary (CBLDocument_MutableProperties, empty for a newly created
document). -/
structure DocW where
  docId : String
  props : List (String × FLVal)

/-- ASCII bytes of "application/octet-stream", the default blob content
type substituted by cblu_docw_set_blob when none is given. -/
def octetStreamCT : List Nat :=
  [97, 112, 112, 108, 105, 99, 97, 116, 105, 111, 110, 47,
   111, 99, 116, 101, 116, 45, 115, 116, 114, 101, 97, 109]

/-- cblu_docw_set_i64 from src/CBLiteC.c (no-op when the writer or key is
NULL). -/
def cblu_docw_set_i64 (d : Option DocW) (key : Option String) (v : Int) : Option DocW :=
  match d, key with
  | some dw, some k => some { dw with props := aset dw.props k (.vNum (.nInt v)) }
  | _, _ => d

/-- cblu_docw_set_u64 from src/CBLiteC.c. -/
def cblu_docw_set_u64 (d : Option DocW) (key : Option String) (v : Nat) : Option DocW :=
  match d, key with
  | some dw, some k => some { dw with props := aset dw.props k (.vNum (.nUInt v)) }
  | _, _ => d

/-- cblu_docw_set_f64 from src/CBLiteC.c (the double is its bit pattern). -/
def cblu_docw_set_f64 (d : Option DocW) (key : Option String) (bits : Nat) : Option DocW :=
  match d, key with
  | some dw, some k => some { dw with props := aset dw.props k (.vNum (.nDbl bits)) }
  | _, _ => d

/-- cblu_docw_set_str from src/CBLiteC.c: a NULL source string is stored as
the empty string. -/
def cblu_docw_set_str (d : Option DocW) (key : Option String) (s : Option (List Nat)) :
    Option DocW :=
  match d, key with
  | some dw, some k => some { dw with props := aset dw.props k (.vStr (s.getD [])) }
  | _, _ => d

/-- cblu_docw_set_bool from src/CBLiteC.c. -/
def cblu_docw_set_bool (d : Option DocW) (key : Option String) (b : Bool) : Option DocW :=
  match d, key with
  | some dw, some k => some { dw with props := aset dw.props k (.vBool b) }
  | _, _ => d

/-- cblu_docw_set_f64_array from src/CBLiteC.c: builds a fresh n-element
array, reading a[i] when the source pointer is non-NULL and substituting
0.0 otherwise, and attaches it at the key. -/
def cblu_docw_set_f64_array (d : Option DocW) (key : Option String)
    (a : Option (List Nat)) (n : Nat) : Option DocW :=
  match d, key with
  | some dw, some k =>
    let elems := (List.range n).map
      (fun i => FLVal.vNum (.nDbl (match a with | some l => l.getD i 0 | none => 0)))
    some { dw with props := aset dw.props k (.vArr elems) }
  | _, _ => d

/-- cblu_docw_set_i64_array from src/CBLiteC.c. -/
def cblu_docw_set_i64_array (d : Option DocW) (key : Option String)
    (a : Option (List Int)) (n : Nat) : Option DocW :=
  match d, key with
  | some dw, some k =>
    let elems := (List.range n).map
      (fun i => FLVal.vNum (.nInt (match a with | some l => l.getD i 0 | none => 0)))
    some { dw with props := aset dw.props k (.vArr elems) }
  | _, _ => d

/-- cblu_docw_set_blob from src/CBLiteC.c: fails (leaving the field
untouched) when the writer or key is NULL or when data is NULL with a
nonzero size; otherwise wraps the first size bytes of data as a blob with
the given (or default) content type.  Blob allocation by the engine is
modeled as always succeeding. -/
def cblu_docw_set_blob (d : Option DocW) (key : Option String)
    (data : Option (List Nat)) (size : Nat) (contentType : Option (List Nat)) :
    Option DocW × Bool :=
  match d, key with
  | some dw, some k =>
    if data = none ∧ 0 < size then (d, false)
    else
      let bytes := (data.getD []).take size
      (some { dw with props := aset dw.props k (.vBlob (contentType.getD octetStreamCT) bytes) },
       true)
  | _, _ => (d, false)

/-- cblu_docw_dict_set_i64 from src/CBLiteC.c, acting on a nested dictionary
builder (none = NULL FLMutableDict). -/
def cblu_docw_dict_set_i64 (dict : Option (List (String × FLVal))) (key : Option String)
    (v : Int) : Option (List (String × FLVal)) :=
  match dict, key with
  | some l, some k => some (aset l k (.vNum (.nInt v)))
  | _, _ => dict

/-- cblu_docw_dict_set_u64 from src/CBLiteC.c. -/
def cblu_docw_dict_set_u64 (dict : Option (List (String × FLVal))) (key : Option String)
    (v : Nat) : Option (List (String × FLVal)) :=
  match dict, key with
  | some l, some k => some (aset l k (.vNum (.nUInt v)))
  | _, _ => dict

/-- cblu_docw_dict_set_f64 from src/CBLiteC.c. -/
def cblu_docw_dict_set_f64 (dict : Option (List (String × FLVal))) (key : Option String)
    (bits : Nat) : Option (List (String × FLVal)) :=
  match dict, key with
  | some l, some k => some (aset l k (.vNum (.nDbl bits)))
  | _, _ => dict

/-- cblu_docw_dict_set_bool from src/CBLiteC.c. -/
def cblu_docw_dict_set_bool (dict : Option (List (String × FLVal))) (key : Option String)
    (b : Bool) : Option (List (String × FLVal)) :=
  match dict, key with
  | some l, some k => some (aset l k (.vBool b))
  | _, _ => dict

/-- cblu_docw_dict_set_str from src/CBLiteC.c. -/
def cblu_docw_dict_set_str (dict : Option (List (String × FLVal))) (key : Option String)
    (s : Option (List Nat)) : Option (List (String × FLVal)) :=
  match dict, key with
  | some l, some k => some (aset l k (.vStr (s.getD [])))
  | _, _ => dict

/-- cblu_docw_array_append_i64 from src/CBLiteC.c, acting on a nested array
builder. -/
def cblu_docw_array_append_i64 (arr : Option (List FLVal)) (v : Int) : Option (List FLVal) :=
  match arr with
  | some l => some (l ++ [.vNum (.nInt v)])
  | none => none

/-- cblu_docw_array_append_u64 from src/CBLiteC.c. -/
def cblu_docw_array_append_u64 (arr : Option (List FLVal)) (v : Nat) : Option (List FLVal) :=
  match arr with
  | some l => some (l ++ [.vNum (.nUInt v)])
  | none => none

/-- cblu_docw_array_append_f64 from src/CBLiteC.c. -/
def cblu_docw_array_append_f64 (arr : Option (List FLVal)) (bits : Nat) : Option (List FLVal) :=
  match arr with
  | some l => some (l ++ [.vNum (.nDbl bits)])
  | none => none

/-- cblu_docw_array_append_bool from src/CBLiteC.c. -/
def cblu_docw_array_append_bool (arr : Option (List FLVal)) (b : Bool) : Option (List FLVal) :=
  match arr with
  | some l => some (l ++ [.vBool b])
  | none => none

/-- cblu_docw_array_append_str from src/CBLiteC.c. -/
def cblu_docw_array_append_str (arr : Option (List FLVal)) (s : Option (List Nat)) :
    Option (List FLVal) :=
  match arr with
  | some l => some (l ++ [.vStr (s.getD [])])
  | none => none

/-- Engine call trace events, used to state ordering and exactly-once
properties about the wrapper's use of the engine. -/
inductive Ev where
  | evOpenDb
  | evGetDefaultColl
  | evBeginTxn
  | evEndTxn (commit : Bool)
  | evSaveDoc (id : String)
  | evReleaseColl
  | evCloseDb
  | evReleaseDb
deriving DecidableEq

/-- Engine-side database state: the committed document store and, while an
engine transaction is active, the staged overlay of documents saved inside
it. -/
structure EngineDB where
  committed : List (String × List (String × FLVal))
  staged : Option (List (String × List (String × FLVal)))

/-- Outcome oracle for the fallible engine calls the wrapper makes; the
spec treats the engine as an external collaborator, so each call's
success/failure is an input of the model. -/
structure EngineFx where
  openOk : Bool
  defaultCollOk : Bool
  beginTxnOk : Bool
  endTxnOk : Bool
  saveOk : Bool
deriving DecidableEq

/-- Wrapper heap objects: struct CBLU_Db (whether its collection and
database fields are still held, i.e. non-NULL) and struct CBLU_Session
(its txn_active flag).  Writers and readers are modeled as pure values
since no lifecycle claim concerns their allocation. -/
inductive Obj where
  | dbHandle (hasColl : Bool) (hasDb : Bool)
  | session (txnActive : Bool)
deriving DecidableEq

/-- Pointer values; 0 is NULL. -/
abbrev Ptr := Nat

/-- Pointer-keyed lookup in the wrapper heap. -/
def plookup : List (Ptr × Obj) → Ptr → Option Obj
  | [], _ => none
  | (q, o) :: t, p => if q = p then some o else plookup t p

/-- Remove a pointer from the heap; models free. -/
def premove (h : List (Ptr × Obj)) (p : Ptr) : List (Ptr × Obj) :=
  h.filter (fun e => e.1 ≠ p)

/-- Whole-system state: engine store, engine reference counts held by the
wrapper, live wrapper heap objects, allocator cursor, engine call trace and
the stderr diagnostic log. -/
structure World where
  eng : EngineDB
  dbRefs : Nat
  collRefs : Nat
  heap : List (Ptr × Obj)
  nextPtr : Ptr
  events : List Ev
  log : List String

/-- Lookup a live object. -/
def heapGet (w : World) (p : Ptr) : Option Obj := plookup w.heap p

/-- Engine CBLCollection_GetDocument: inside an active transaction on this
database, reads observe the staged overlay first, then the committed
store. -/
def engineGetDoc (e : EngineDB) (id : String) : Option (List (String × FLVal)) :=
  match e.staged with
  | some ov =>
    match alookup ov id with
    | some pr => some pr
    | none => alookup e.committed id
  | none => alookup e.committed id

/-- Engine CBLCollection_SaveDocument (replace-by-id): staged while a
transaction is active, committed immediately otherwise. -/
def engineSaveDoc (e : EngineDB) (id : String) (pr : List (String × FLVal)) : EngineDB :=
  match e.staged with
  | some ov => { e with staged := some (aset ov id pr) }
  | none => { e with committed := aset e.committed id pr }

/-- Apply a staged overlay to the committed store (engine commit). -/
def applyOverlay (ov committed : List (String × List (String × FLVal))) :
    List (String × List (String × FLVal)) :=
  ov.foldl (fun c kv => aset c kv.1 kv.2) committed

/-- Engine CBLDatabase_EndTransaction on success: commit applies the staged
overlay atomically, rollback discards it. -/
def engineEndTxn (e : EngineDB) (commit : Bool) : EngineDB :=
  if commit then { committed := applyOverlay (e.staged.getD []) e.committed, staged := none }
  else { e with staged := none }

/-- cblu_open from src/CBLiteC.c.  The C out-parameter is folded into the
Option result (none covers both the false return and *out_db = NULL); a
NULL out_db or db_name fails up front with no effect.  On engine open
failure nothing was acquired; on default-collection failure the database is
closed and released before reporting failure. -/
def cblu_open (fx : EngineFx) (w : World) (dbName : Option String) (dir : Option String) :
    World × Option Ptr :=
  match dbName, dir with
  | none, _ => (w, none)
  | some _, _ =>
    if fx.openOk then
      let w1 := { w with dbRefs := w.dbRefs + 1, events := w.events ++ [Ev.evOpenDb] }
      if fx.defaultCollOk then
        let w2 := { w1 with collRefs := w1.collRefs + 1,
                            events := w1.events ++ [Ev.evGetDefaultColl] }
        let p := w2.nextPtr
        ({ w2 with heap := (p, Obj.dbHandle true true) :: w2.heap, nextPtr := p + 1 }, some p)
      else
        ({ w1 with log := w1.log ++ ["CBL default collection failed"],
                   events := w1.events ++ [Ev.evCloseDb, Ev.evReleaseDb],
                   dbRefs := w1.dbRefs - 1 }, none)
    else ({ w with log := w.log ++ ["CBL open failed"] }, none)

/-- cblu_close from src/CBLiteC.c: NULL is a no-op; a live handle releases
its collection reference first, then closes and releases the database, then
is freed.  Dereferencing a pointer that is not a live CBLU_Db (in
particular an already-freed handle) is undefined behavior in C, modeled as
none. -/
def cblu_close (w : World) (p : Ptr) : Option World :=
  if p = 0 then some w
  else
    match heapGet w p with
    | some (.dbHandle hasColl hasDb) =>
      let w1 := if hasColl then
          { w with collRefs := w.collRefs - 1, events := w.events ++ [Ev.evReleaseColl] }
        else w
      let w2 := if hasDb then
          { w1 with dbRefs := w1.dbRefs - 1, events := w1.events ++ [Ev.evCloseDb, Ev.evReleaseDb] }
        else w1
      some { w2 with heap := premove w2.heap p }
    | _ => none

/-- cblu_session_begin_txn from src/CBLiteC.c: NULL database yields NULL; a
session is allocated, and if use_txn is requested the engine transaction is
begun eagerly — on failure the session is freed again and NULL returned,
leaving no live allocation and no transaction.  Dereferencing a dead or
non-database pointer is undefined behavior (none). -/
def cblu_session_begin_txn (fx : EngineFx) (w : World) (db : Ptr) (useTxn : Bool) :
    Option (World × Ptr) :=
  if db = 0 then some (w, 0)
  else
    match heapGet w db with
    | some (.dbHandle _ _) =>
      let p := w.nextPtr
      if useTxn then
        if fx.beginTxnOk then
          some ({ w with heap := (p, Obj.session true) :: w.heap, nextPtr := p + 1,
                         eng := { w.eng with staged := some [] },
                         events := w.events ++ [Ev.evBeginTxn] }, p)
        else
          some ({ w with log := w.log ++ ["CBL begin txn failed"], nextPtr := p + 1 }, 0)
      else some ({ w with heap := (p, Obj.session false) :: w.heap, nextPtr := p + 1 }, p)
    | _ => none

/-- cblu_session_begin from src/CBLiteC.c. -/
def cblu_session_begin (fx : EngineFx) (w : World) (db : Ptr) : Option (World × Ptr) :=
  cblu_session_begin_txn fx w db false

/-- cblu_session_end_txn from src/CBLiteC.c: NULL is a no-op; on a live
session, an active transaction is ended exactly once with the requested
outcome — an engine end failure is only written to the stderr log (the C
function returns void) — and the session is freed unconditionally.  On a
failed end the engine transaction is still over (modeled as the staged
overlay being dropped without applying). -/
def cblu_session_end_txn (fx : EngineFx) (w : World) (p : Ptr) (commit : Bool) :
    Option World :=
  if p = 0 then some w
  else
    match heapGet w p with
    | some (.session txnActive) =>
      let w1 :=
        if txnActive then
          let wE := { w with events := w.events ++ [Ev.evEndTxn commit] }
          if fx.endTxnOk then { wE with eng := engineEndTxn wE.eng commit }
          else { wE with eng := { wE.eng with staged := none },
                         log := wE.log ++ ["CBL end txn failed"] }
        else w
      some { w1 with heap := premove w1.heap p }
    | _ => none

/-- cblu_session_end from src/CBLiteC.c: delegates to cblu_session_end_txn
with commit = true. -/
def cblu_session_end (fx : EngineFx) (w : World) (p : Ptr) : Option World :=
  cblu_session_end_txn fx w p true

/-- cblu_docw_begin from src/CBLiteC.c: NULL session or doc id yields NULL;
otherwise a fresh document keyed by doc_id with an empty mutable property
dictionary.  (The C code only takes the address of the session's core here,
it does not dereference it.) -/
def cblu_docw_begin (s : Ptr) (docId : Option String) : Option DocW :=
  match docId with
  | some id => if s = 0 then none else some { docId := id, props := [] }
  | none => none

/-- cblu_docw_save from src/CBLiteC.c: saves the writer's document into the
collection (replace-by-id; staged if an engine transaction is active),
returns the engine's success flag, and releases the writer regardless of
the outcome (release is implicit in the pure model). -/
def cblu_docw_save (fx : EngineFx) (w : World) (d : Option DocW) : World × Bool :=
  match d with
  | none => (w, false)
  | some dw =>
    if fx.saveOk then
      ({ w with eng := engineSaveDoc w.eng dw.docId dw.props,
                events := w.events ++ [Ev.evSaveDoc dw.docId] }, true)
    else ({ w with log := w.log ++ ["CBL save failed"] }, false)

/-- cblu_docr_get from src/CBLiteC.c: NULL session or doc id yields NULL;
otherwise the document is fetched from the collection and the reader keeps
an immutable snapshot of its properties.  A dangling session pointer is
undefined behavior in C; it is mapped to none here and no claim relies on
that case. -/
def cblu_docr_get (w : World) (s : Ptr) (docId : Option String) : Option DocR :=
  match docId with
  | none => none
  | some id =>
    if s = 0 then none
    else
      match heapGet w s with
      | some (.session _) => (engineGetDoc w.eng id).map (fun pr => { props := pr })
      | _ => none

/-- One call to a nested dictionary builder (the cblu_docw_dict_set family
between cblu_docw_begin_dict and cblu_docw_end_dict). -/
inductive DOp where
  | dI64 (k : String) (v : Int)
  | dU64 (k : String) (v : Nat)
  | dF64 (k : String) (bits : Nat)
  | dBool (k : String) (b : Bool)
  | dStr (k : String) (s : Option (List Nat))

/-- One call to a nested array builder (the cblu_docw_array_append family
between cblu_docw_begin_array and cblu_docw_end_array). -/
inductive AOp where
  | aI64 (v : Int)
  | aU64 (v : Nat)
  | aF64 (bits : Nat)
  | aBool (b : Bool)
  | aStr (s : Option (List Nat))

/-- Apply one dict-builder call through the corresponding wrapper
function. -/
def applyDOp (dict : Option (List (String × FLVal))) : DOp → Option (List (String × FLVal))
  | .dI64 k v => cblu_docw_dict_set_i64 dict (some k) v
  | .dU64 k v => cblu_docw_dict_set_u64 dict (some k) v
  | .dF64 k b => cblu_docw_dict_set_f64 dict (some k) b
  | .dBool k b => cblu_docw_dict_set_bool dict (some k) b
  | .dStr k s => cblu_docw_dict_set_str dict (some k) s

/-- Apply one array-builder call through the corresponding wrapper
function. -/
def applyAOp (arr : Option (List FLVal)) : AOp → Option (List FLVal)
  | .aI64 v => cblu_docw_array_append_i64 arr v
  | .aU64 v => cblu_docw_array_append_u64 arr v
  | .aF64 b => cblu_docw_array_append_f64 arr b
  | .aBool b => cblu_docw_array_append_bool arr b
  | .aStr s => cblu_docw_array_append_str arr s

/-- The element value a single array-builder call appends. -/
def aopVal : AOp → FLVal
  | .aI64 v => .vNum (.nInt v)
  | .aU64 v => .vNum (.nUInt v)
  | .aF64 b => .vNum (.nDbl b)
  | .aBool b => .vBool b
  | .aStr s => .vStr (s.getD [])

/-- Contents of a nested dictionary built by a begin_dict / dict_set* /
end_dict sequence: cblu_docw_begin_dict creates a fresh empty dictionary
(already attached to the parent field), the calls populate it, and end_dict
merely drops the builder reference. -/
def buildSubDict (sub : List DOp) : List (String × FLVal) :=
  (sub.foldl applyDOp (some [])).getD []

/-- Contents of a nested array built by a begin_array / append* / end_array
sequence. -/
def buildSubArr (sub : List AOp) : List FLVal :=
  (sub.foldl applyAOp (some [])).getD []

/-- One complete field-writing action on a Document Writer, as issued by a
caller following the builder protocol.  Nested containers appear as one
composite action (create-and-attach, populate, close), matching the C call
sequence for straight-line use. -/
inductive WOp where
  | wI64 (k : String) (v : Int)
  | wU64 (k : String) (v : Nat)
  | wF64 (k : String) (bits : Nat)
  | wStr (k : String) (s : Option (List Nat))
  | wBool (k : String) (b : Bool)
  | wF64Arr (k : String) (a : Option (List Nat)) (n : Nat)
  | wI64Arr (k : String) (a : Option (List Int)) (n : Nat)
  | wBlob (k : String) (data : Option (List Nat)) (size : Nat) (ct : Option (List Nat))
  | wDict (k : String) (sub : List DOp)
  | wArr (k : String) (sub : List AOp)

/-- Apply one writer action through the corresponding wrapper function(s).
For the nested builders this is the begin / populate / end composite:
cblu_docw_begin_dict attaches a fresh dictionary which the sub-calls then
fill in place, so the field ends up holding the fully built container. -/
def applyWOp (d : Option DocW) : WOp → Option DocW
  | .wI64 k v => cblu_docw_set_i64 d (some k) v
  | .wU64 k v => cblu_docw_set_u64 d (some k) v
  | .wF64 k b => cblu_docw_set_f64 d (some k) b
  | .wStr k s => cblu_docw_set_str d (some k) s
  | .wBool k b => cblu_docw_set_bool d (some k) b
  | .wF64Arr k a n => cblu_docw_set_f64_array d (some k) a n
  | .wI64Arr k a n => cblu_docw_set_i64_array d (some k) a n
  | .wBlob k data sz ct => (cblu_docw_set_blob d (some k) data sz ct).1
  | .wDict k sub =>
    match d with
    | some dw => some { dw with props := aset dw.props k (.vDict (buildSubDict sub)) }
    | none => none
  | .wArr k sub =>
    match d with
    | some dw => some { dw with props := aset dw.props k (.vArr (buildSubArr sub)) }
    | none => none

/-- The value a single writer action stores at key k, if any (none when the
action targets another key, or when it is a set_blob call that fails its
argument check and leaves the field untouched). -/
def wopVal : WOp → String → Option FLVal
  | .wI64 k2 v, k => if k2 = k then some (.vNum (.nInt v)) else none
  | .wU64 k2 v, k => if k2 = k then some (.vNum (.nUInt v)) else none
  | .wF64 k2 b, k => if k2 = k then some (.vNum (.nDbl b)) else none
  | .wStr k2 s, k => if k2 = k then some (.vStr (s.getD [])) else none
  | .wBool k2 b, k => if k2 = k then some (.vBool b) else none
  | .wF64Arr k2 a n, k =>
    if k2 = k then
      some (.vArr ((List.range n).map
        (fun i => FLVal.vNum (.nDbl (match a with | some l => l.getD i 0 | none => 0)))))
    else none
  | .wI64Arr k2 a n, k =>
    if k2 = k then
      some (.vArr ((List.range n).map
        (fun i => FLVal.vNum (.nInt (match a with | some l => l.getD i 0 | none => 0)))))
    else none
  | .wBlob k2 data sz ct, k =>
    if k2 = k ∧ ¬(data = none ∧ 0 < sz) then
      some (.vBlob (ct.getD octetStreamCT) ((data.getD []).take sz))
    else none
  | .wDict k2 sub, k => if k2 = k then some (.vDict (buildSubDict sub)) else none
  | .wArr k2 sub, k => if k2 = k then some (.vArr (buildSubArr sub)) else none

/-- The last value an action sequence stores at key k, if the key was set at
all (later actions on the same key overwrite earlier ones). -/
def lastSetVal (ops : List WOp) (k : String) : Option FLVal :=
  ops.foldl (fun acc op => match wopVal op k with | some v => some v | none => acc) none

/-- Whether the written region of a buffer of the given capacity contains a
NUL terminator. -/
def hasNulWithin (buf : List Nat) (cap : Nat) : Bool :=
  (buf.take cap).contains 0

/-- Engine failure oracle with every call succeeding. -/
def fxAll : EngineFx := ⟨true, true, true, true, true⟩

/-- Engine failure oracle where only CBLDatabase_EndTransaction fails. -/
def fxEndFail : EngineFx := ⟨true, true, true, false, true⟩

/-- Engine failure oracle where only CBLDatabase_BeginTransaction fails. -/
def fxBeginFail : EngineFx := ⟨true, true, false, true, true⟩

/-- Empty engine store, no active transaction. -/
def emptyEng : EngineDB := ⟨[], none⟩

/-- Fresh world: nothing open, nothing allocated. -/
def w0 : World := ⟨emptyEng, 0, 0, [], 1, [], []⟩

/-- World with one open database handle's references and one live
non-transactional session at pointer 1. -/
def sessW : World := ⟨emptyEng, 1, 1, [(1, Obj.session false)], 2, [], []⟩

/-- Engine store with an active transaction holding one staged document. -/
def txnEng : EngineDB := ⟨[], some [("d", [("x", FLVal.vNum (FLNumRep.nInt 1))])]⟩

/-- World with one live transactional session at pointer 1 and the staged
document of txnEng. -/
def txnSessW : World := ⟨txnEng, 1, 1, [(1, Obj.session true)], 2, [], []⟩

/-- State after cblu_session_end_txn fxEndFail txnSessW 1 true: the session
is freed and the transaction over, but the end-transaction failure exists
only in the stderr log. -/
def c6wFail : World := ⟨⟨[], none⟩, 1, 1, [], 2, [Ev.evEndTxn true], ["CBL end txn failed"]⟩

/-- State after cblu_session_end_txn fxAll txnSessW 1 true: staged overlay
committed, session freed. -/
def c6wOk : World :=
  ⟨⟨[("d", [("x", FLVal.vNum (FLNumRep.nInt 1))])], none⟩, 1, 1, [], 2, [Ev.evEndTxn true], []⟩

/-- State after a successful cblu_open on the fresh world w0. -/
def c8w1 : World :=
  ⟨emptyEng, 1, 1, [(1, Obj.dbHandle true true)], 2, [Ev.evOpenDb, Ev.evGetDefaultColl], []⟩

/-- State after cblu_close c8w1 1: both references released (collection
first), handle freed. -/
def c8w2 : World :=
  ⟨emptyEng, 0, 0, [], 2,
   [Ev.evOpenDb, Ev.evGetDefaultColl, Ev.evReleaseColl, Ev.evCloseDb, Ev.evReleaseDb], []⟩

/-- Reader over a document with a two-byte string at key k, used to
exercise getString at capacity zero. -/
def c3dr : DocR := ⟨[("k", FLVal.vStr [104, 105])]⟩

/-- Round-trip property for claim C1: building a writer with any action
sequence, saving it, and fetching a fresh reader afterwards through the
same session yields exactly the writer's property dictionary; every key the
sequence set is observed with the last value (type and value) the setters
stored; array builders preserve append order; and a reader fetched before
the save sees exactly the pre-save engine content. -/
def C1Spec (fx : EngineFx) (w : World) (p : Ptr) (id : String) (ops : List WOp) : Prop :=
  ∃ dw0 dw, cblu_docw_begin p (some id) = some dw0 ∧
    ops.foldl applyWOp (some dw0) = some dw ∧
    (cblu_docw_save fx w (some dw)).2 = true ∧
    cblu_docr_get (cblu_docw_save fx w (some dw)).1 p (some id) = some { props := dw.props } ∧
    (∀ k v, lastSetVal ops k = some v → alookup dw.props k = some v) ∧
    (∀ sub : List AOp, buildSubArr sub = sub.map aopVal) ∧
    cblu_docr_get w p (some id) = (engineGetDoc w.eng id).map (fun pr => { props := pr })

/-- Typed scalar getter contract for claim C2: each getter succeeds and
writes its cell exactly when the stored value's type is accepted (numeric
for the numeric getters, boolean-or-numeric for getBool with numeric
truthiness), and otherwise returns false leaving the cell's prior value in
place. -/
def C2Spec (dr : DocR) (k : String) (xi : Int) (xu : Nat) (xf : Nat) (xb : Bool) : Prop :=
  (cblu_docr_get_i64 (some dr) (some k) (some xi) =
    (match alookup dr.props k with
     | some (FLVal.vNum n) => (true, some (flAsInt (FLVal.vNum n)))
     | _ => (false, some xi))) ∧
  (cblu_docr_get_u64 (some dr) (some k) (some xu) =
    (match alookup dr.props k with
     | some (FLVal.vNum n) => (true, some (flAsUnsigned (FLVal.vNum n)))
     | _ => (false, some xu))) ∧
  (cblu_docr_get_f64 (some dr) (some k) (some xf) =
    (match alookup dr.props k with
     | some (FLVal.vNum n) => (true, some (flAsDouble (FLVal.vNum n)))
     | _ => (false, some xf))) ∧
  (cblu_docr_get_bool (some dr) (some k) (some xb) =
    (match alookup dr.props k with
     | some (FLVal.vBool b) => (true, some b)
     | some (FLVal.vNum n) => (true, some (! numIsZero n))
     | _ => (false, some xb))) ∧
  ((cblu_docr_get_i64 (some dr) (some k) (some xi)).1 = fl_is_number (alookup dr.props k))

/-- Bounded-copy contract of getString for claim C3 (amended to calls that
pass the defensive argument guard): at most dstCapacity - 1 stored bytes
are copied, nothing at or beyond index dstCapacity changes, the result is
NUL-terminated at index bytesWritten, the returned count is the number of
bytes written excluding the terminator, and an absent or non-string key
yields 0 with an empty string written. -/
def C3Spec (dr : DocR) (k : String) (buf : List Nat) (sz : Nat) : Prop :=
  let r := cblu_docr_get_str (some dr) (some k) (some buf) sz
  (∃ buf2, r.2 = some buf2 ∧ r.1 + 1 ≤ sz ∧ buf2.length = buf.length ∧
    buf2.drop sz = buf.drop sz ∧ buf2.getD r.1 1 = 0 ∧
    (match alookup dr.props k with
     | some (FLVal.vStr s) => r.1 = min s.length (sz - 1) ∧ buf2.take r.1 = s.take r.1
     | _ => r.1 = 0 ∧ buf2 = 0 :: buf.drop 1)) ∧
  (∀ (d2 : Option DocR) (k2 : Option String) (dst2 : Option (List Nat)),
    cblu_docr_get_str d2 k2 dst2 0 = (0, dst2)) ∧
  (∀ (k2 : Option String) (dst2 : Option (List Nat)) (sz2 : Nat),
    cblu_docr_get_str none k2 dst2 sz2 = (0, dst2))

/-- Array getter contract for claim C4: absent or non-array keys yield 0
with the buffer untouched; otherwise exactly min(storedCount, maxCount)
elements are taken from the front of the stored array in stored order,
non-numeric elements coerce to zero, the tail of the buffer is untouched,
and the count is returned. -/
def C4Spec (dr : DocR) (k : String) (bufF : List Nat) (bufI : List Int) (maxn : Nat) : Prop :=
  let rf := cblu_docr_get_f64_array (some dr) (some k) (some bufF) maxn
  let ri := cblu_docr_get_i64_array (some dr) (some k) (some bufI) maxn
  match alookup dr.props k with
  | some (FLVal.vArr xs) =>
    rf.1 = min xs.length maxn ∧
    rf.2 = some ((xs.take rf.1).map (fun it => if isNumberV it then flAsDouble it else 0)
                   ++ bufF.drop rf.1) ∧
    ri.1 = min xs.length maxn ∧
    ri.2 = some ((xs.take ri.1).map (fun it => if isNumberV it then flAsInt it else 0)
                   ++ bufI.drop ri.1)
  | _ => rf = (0, some bufF) ∧ ri = (0, some bufI)

/-- Blob getter contract for claim C5: 0 when the key is absent, not a
blob, or the content is empty; otherwise the content-type buffer, when
supplied with nonzero capacity, receives the truncated NUL-terminated
content type (even when the content then turns out empty, as in the
source), exactly min(blobSize, dstCapacity) content bytes are copied, that
count is returned, and passing no content-type buffer changes nothing
else. -/
def C5Spec (dr : DocR) (k : String) (buf : List Nat) (sz : Nat)
    (ctbuf : List Nat) (ctsz : Nat) : Prop :=
  let r := cblu_docr_get_blob (some dr) (some k) (some buf) sz (some ctbuf) ctsz
  match (alookup dr.props k).bind flAsBlob with
  | some pb =>
    (0 < ctsz → r.2.2 = some ((pb.1.take (min pb.1.length (ctsz - 1)) ++ [0])
                   ++ ctbuf.drop (min pb.1.length (ctsz - 1) + 1))) ∧
    (ctsz = 0 → r.2.2 = some ctbuf) ∧
    (pb.2.length = 0 → r.1 = 0 ∧ r.2.1 = some buf) ∧
    (0 < pb.2.length → r.1 = min pb.2.length sz ∧
       r.2.1 = some (pb.2.take r.1 ++ buf.drop r.1)) ∧
    (cblu_docr_get_blob (some dr) (some k) (some buf) sz none ctsz = (r.1, r.2.1, none))
  | none => r = (0, some buf, some ctbuf)

/-- Session teardown contract for claim C6 (amended): the call completes
(void in C), the session is freed unconditionally, an active transaction is
ended exactly once with the requested outcome, no transaction is ended when
none is active, and an engine end-transaction failure is recorded only in
the stderr log. -/
def C6Spec (fx : EngineFx) (w : World) (p : Ptr) (commit tA : Bool) : Prop :=
  ∃ w2, cblu_session_end_txn fx w p commit = some w2 ∧
    w2.heap = premove w.heap p ∧
    (tA = true → w2.events = w.events ++ [Ev.evEndTxn commit]) ∧
    (tA = false → w2.events = w.events ∧ w2.eng = w.eng ∧ w2.log = w.log) ∧
    (tA = true → fx.endTxnOk = true → w2.log = w.log ∧ w2.eng = engineEndTxn w.eng commit) ∧
    (tA = true → fx.endTxnOk = false → w2.log = w.log ++ ["CBL end txn failed"])

/-- All-or-nothing acquisition contract for claim C7: a failed open leaves
the reference counts, heap and engine store exactly as before and returns
no handle; a successful open returns a fully initialized handle; a failed
transactional session begin frees the just-allocated session, changes
neither the heap nor the engine state, and returns NULL. -/
def C7Spec (fx : EngineFx) (w : World) (nm dir : Option String) : Prop :=
  ((cblu_open fx w nm dir).2 = none →
    (cblu_open fx w nm dir).1.dbRefs = w.dbRefs ∧
    (cblu_open fx w nm dir).1.collRefs = w.collRefs ∧
    (cblu_open fx w nm dir).1.heap = w.heap ∧
    (cblu_open fx w nm dir).1.eng = w.eng) ∧
  (∀ q, (cblu_open fx w nm dir).2 = some q →
    heapGet (cblu_open fx w nm dir).1 q = some (Obj.dbHandle true true)) ∧
  (∀ (db : Ptr) (hc hd : Bool), heapGet w db = some (Obj.dbHandle hc hd) → db ≠ 0 →
    fx.beginTxnOk = false →
    cblu_session_begin_txn fx w db true =
      some ({ w with log := w.log ++ ["CBL begin txn failed"], nextPtr := w.nextPtr + 1 }, 0))

/-- Close contract for claim C8 (amended): close on NULL is a no-op; after
a successful open, close releases the collection reference strictly before
closing and releasing the database (visible in the event order), restores
both reference counts and the heap, and frees the handle — after which a
second close on the same pointer is a double free (undefined behavior),
not a no-op. -/
def C8Spec (w w1 : World) (p : Ptr) : Prop :=
  (∀ v : World, cblu_close v 0 = some v) ∧
  ∃ w2, cblu_close w1 p = some w2 ∧
    w2.dbRefs = w.dbRefs ∧ w2.collRefs = w.collRefs ∧ w2.heap = w.heap ∧
    w2.events = w.events ++ [Ev.evOpenDb, Ev.evGetDefaultColl, Ev.evReleaseColl,
                             Ev.evCloseDb, Ev.evReleaseDb] ∧
    cblu_close w2 p = none

/-- Defensive totality of the reader accessors for claim C9: with a NULL
reader, key or principal output pointer, or a zero destination
capacity/count, every accessor returns false or 0 and leaves every buffer
exactly as it was. -/
def C9Spec : Prop :=
  (∀ d k, (d = none ∨ k = none) → cblu_docr_has d k = false) ∧
  (∀ d k out, (d = none ∨ k = none ∨ out = none) →
    cblu_docr_get_i64 d k out = (false, out)) ∧
  (∀ d k out, (d = none ∨ k = none ∨ out = none) →
    cblu_docr_get_u64 d k out = (false, out)) ∧
  (∀ d k out, (d = none ∨ k = none ∨ out = none) →
    cblu_docr_get_f64 d k out = (false, out)) ∧
  (∀ d k out, (d = none ∨ k = none ∨ out = none) →
    cblu_docr_get_bool d k out = (false, out)) ∧
  (∀ d k dst sz, (d = none ∨ k = none ∨ dst = none ∨ sz = 0) →
    cblu_docr_get_str d k dst sz = (0, dst)) ∧
  (∀ d k out mx, (d = none ∨ k = none ∨ out = none ∨ mx = 0) →
    cblu_docr_get_f64_array d k out mx = (0, out)) ∧
  (∀ d k out mx, (d = none ∨ k = none ∨ out = none ∨ mx = 0) →
    cblu_docr_get_i64_array d k out mx = (0, out)) ∧
  (∀ d k dst sz ctd ctsz, (d = none ∨ k = none ∨ dst = none ∨ sz = 0) →
    cblu_docr_get_blob d k dst sz ctd ctsz = (0, dst, ctd))

/-- Convenience teardown contract for claim C10: cblu_session_end is
exactly cblu_session_end_txn with commit = true, and on a live
transactional session with a successful engine end it applies the staged
writes to the committed store. -/
def C10Spec : Prop :=
  (∀ (fx : EngineFx) (w : World) (p : Ptr),
    cblu_session_end fx w p = cblu_session_end_txn fx w p true) ∧
  (∀ (fx : EngineFx) (w : World) (p : Ptr) (ov : List (String × List (String × FLVal))),
    heapGet w p = some (Obj.session true) → p ≠ 0 → w.eng.staged = some ov →
    fx.endTxnOk = true →
    ∃ w2, cblu_session_end fx w p = some w2 ∧
      w2.eng.committed = applyOverlay ov w.eng.committed ∧ w2.eng.staged = none)

theorem alookup_aset_self {α : Type} (l : List (String × α)) (k : String) (v : α) :
    alookup (aset l k v) k = some v := by
  induction l with
  | nil => simp [aset, alookup]
  | cons h t ih =>
    obtain ⟨k1, v1⟩ := h
    by_cases hk : k1 = k
    · subst hk; simp [aset, alookup]
    · simp [aset, alookup, hk, ih]

theorem alookup_aset_ne {α : Type} (l : List (String × α)) (k2 k : String) (v : α)
    (h : k2 ≠ k) : alookup (aset l k2 v) k = alookup l k := by
  induction l with
  | nil => simp [aset, alookup, h]
  | cons e t ih =>
    obtain ⟨k1, v1⟩ := e
    by_cases hk : k1 = k2
    · subst hk; simp [aset, alookup, h, ih]
    · by_cases hk2 : k1 = k
      · subst hk2; simp [aset, alookup, hk, ih]
      · simp [aset, alookup, hk, hk2, ih]

theorem set_append_len {α : Type} (A : List α) (x y : α) (t : List α) :
    (A ++ x :: t).set A.length y = A ++ y :: t := by
  induction A with
  | nil => simp
  | cons a A ih => simp [ih]

theorem exists_drop_cons {α : Type} :
    ∀ (l : List α) (n : Nat), n < l.length → ∃ x, l.drop n = x :: l.drop (n + 1) := by
  intro l
  induction l with
  | nil => intro n h; simp at h
  | cons a t ih =>
    intro n h
    cases n with
    | zero => exact ⟨a, by simp⟩
    | succ m =>
      obtain ⟨x, hx⟩ := ih m (by simpa using h)
      exact ⟨x, by simpa using hx⟩

theorem take_succ_getD {α : Type} (d : α) :
    ∀ (l : List α) (n : Nat), n < l.length → l.take (n + 1) = l.take n ++ [l.getD n d] := by
  intro l
  induction l with
  | nil => intro n h; simp at h
  | cons a t ih =>
    intro n h
    cases n with
    | zero => simp [List.getD]
    | succ m =>
      have := ih m (by simpa using h)
      simp [List.getD] at this ⊢
      exact this

theorem drop_append_ge {α : Type} :
    ∀ (l t : List α) (m : Nat), l.length ≤ m → (l ++ t).drop m = t.drop (m - l.length) := by
  intro l
  induction l with
  | nil => simp
  | cons a l ih =>
    intro t m h
    cases m with
    | zero => simp at h
    | succ m2 =>
      have := ih t m2 (by simpa using h)
      simpa [Nat.succ_sub_succ] using this

theorem writeFront_drop {α : Type} (buf data : List α) (m : Nat) (h : data.length ≤ m) :
    (writeFront buf data).drop m = buf.drop m := by
  unfold writeFront
  rw [drop_append_ge _ _ _ h, List.drop_drop]
  congr 1
  omega

theorem writeFront_length {α : Type} (buf data : List α) (h : data.length ≤ buf.length) :
    (writeFront buf data).length = buf.length := by
  simp [writeFront]
  omega

theorem getD_append_lt {α : Type} (d : α) :
    ∀ (l t : List α) (i : Nat), i < l.length → (l ++ t).getD i d = l.getD i d := by
  intro l
  induction l with
  | nil => intro t i h; simp at h
  | cons a l ih =>
    intro t i h
    cases i with
    | zero => simp [List.getD]
    | succ j =>
      have := ih t j (by simpa using h)
      simpa [List.getD] using this

theorem getD_append_len {α : Type} (d : α) :
    ∀ (l : List α) (x : α) (t : List α), (l ++ x :: t).getD l.length d = x := by
  intro l
  induction l with
  | nil => intro x t; simp [List.getD]
  | cons a l ih => intro x t; simpa [List.getD] using ih x t

theorem take_append_len {α : Type} (l t : List α) : (l ++ t).take l.length = l := by
  induction l with
  | nil => simp
  | cons a l ih => simp [ih]

theorem copyLoop_spec {α : Type} (src : List FLVal) (f : FLVal → α) :
    ∀ (n : Nat) (buf : List α), n ≤ src.length → n ≤ buf.length →
      copyLoop src f n buf = (src.take n).map f ++ buf.drop n := by
  intro n
  induction n with
  | zero => intro buf _ _; simp [copyLoop]
  | succ m ih =>
    intro buf h1 h2
    have hm1 : m < src.length := by omega
    have hm2 : m < buf.length := by omega
    rw [copyLoop, ih buf (by omega) (by omega)]
    obtain ⟨x, hx⟩ := exists_drop_cons buf m hm2
    rw [hx]
    have hlen : ((src.take m).map f).length = m := by
      simp [Nat.min_eq_left (Nat.le_of_lt hm1)]
    calc ((src.take m).map f ++ x :: buf.drop (m + 1)).set m (f (src.getD m .vNull))
        = ((src.take m).map f ++ x :: buf.drop (m + 1)).set ((src.take m).map f).length
            (f (src.getD m .vNull)) := by rw [hlen]
      _ = (src.take m).map f ++ f (src.getD m .vNull) :: buf.drop (m + 1) :=
            set_append_len _ _ _ _
      _ = (src.take (m + 1)).map f ++ buf.drop (m + 1) := by
            rw [take_succ_getD FLVal.vNull src m hm1]
            simp

theorem engineGetDoc_save (e : EngineDB) (id : String) (pr : List (String × FLVal)) :
    engineGetDoc (engineSaveDoc e id pr) id = some pr := by
  unfold engineSaveDoc engineGetDoc
  cases h : e.staged with
  | none => simp [alookup_aset_self]
  | some ov => simp [alookup_aset_self]

theorem applyWOp_some (dw : DocW) (op : WOp) :
    ∃ dw2, applyWOp (some dw) op = some dw2 ∧ dw2.docId = dw.docId := by
  cases op with
  | wI64 k v => exact ⟨_, rfl, rfl⟩
  | wU64 k v => exact ⟨_, rfl, rfl⟩
  | wF64 k b => exact ⟨_, rfl, rfl⟩
  | wStr k s => exact ⟨_, rfl, rfl⟩
  | wBool k b => exact ⟨_, rfl, rfl⟩
  | wF64Arr k a n => exact ⟨_, rfl, rfl⟩
  | wI64Arr k a n => exact ⟨_, rfl, rfl⟩
  | wBlob k data sz ct =>
    by_cases h : data = none ∧ 0 < sz
    · exact ⟨dw, by simp [applyWOp, cblu_docw_set_blob, h], rfl⟩
    · have hstep : applyWOp (some dw) (WOp.wBlob k data sz ct) =
          some ⟨dw.docId, aset dw.props k (FLVal.vBlob (ct.getD octetStreamCT) ((data.getD []).take sz))⟩ := by
        simp [applyWOp, cblu_docw_set_blob, h]
      exact ⟨_, hstep, rfl⟩
  | wDict k sub => exact ⟨_, rfl, rfl⟩
  | wArr k sub => exact ⟨_, rfl, rfl⟩

theorem applyWOp_lookup (dw dw2 : DocW) (op : WOp) (k : String)
    (h : applyWOp (some dw) op = some dw2) :
    alookup dw2.props k =
      (match wopVal op k with
       | some v => some v
       | none => alookup dw.props k) := by
  cases op with
  | wBlob k2 data sz ct =>
    by_cases hc : data = none ∧ 0 < sz
    · simp [applyWOp, cblu_docw_set_blob, hc] at h
      subst h
      simp [wopVal, hc]
    · simp [applyWOp, cblu_docw_set_blob, hc] at h
      by_cases hk : k2 = k
      · subst hk
        rw [← h]
        simp [wopVal, hc, alookup_aset_self]
      · rw [← h]
        simp [wopVal, hk, alookup_aset_ne _ _ _ _ hk]
  | wI64 k2 v =>
    simp [applyWOp, cblu_docw_set_i64] at h
    by_cases hk : k2 = k
    · subst hk; rw [← h]; simp [wopVal, alookup_aset_self]
    · rw [← h]; simp [wopVal, hk, alookup_aset_ne _ _ _ _ hk]
  | wU64 k2 v =>
    simp [applyWOp, cblu_docw_set_u64] at h
    by_cases hk : k2 = k
    · subst hk; rw [← h]; simp [wopVal, alookup_aset_self]
    · rw [← h]; simp [wopVal, hk, alookup_aset_ne _ _ _ _ hk]
  | wF64 k2 b =>
    simp [applyWOp, cblu_docw_set_f64] at h
    by_cases hk : k2 = k
    · subst hk; rw [← h]; simp [wopVal, alookup_aset_self]
    · rw [← h]; simp [wopVal, hk, alookup_aset_ne _ _ _ _ hk]
  | wStr k2 s =>
    simp [applyWOp, cblu_docw_set_str] at h
    by_cases hk : k2 = k
    · subst hk; rw [← h]; simp [wopVal, alookup_aset_self]
    · rw [← h]; simp [wopVal, hk, alookup_aset_ne _ _ _ _ hk]
  | wBool k2 b =>
    simp [applyWOp, cblu_docw_set_bool] at h
    by_cases hk : k2 = k
    · subst hk; rw [← h]; simp [wopVal, alookup_aset_self]
    · rw [← h]; simp [wopVal, hk, alookup_aset_ne _ _ _ _ hk]
  | wF64Arr k2 a n =>
    simp [applyWOp, cblu_docw_set_f64_array] at h
    by_cases hk : k2 = k
    · subst hk; rw [← h]; simp [wopVal, alookup_aset_self]
    · rw [← h]; simp [wopVal, hk, alookup_aset_ne _ _ _ _ hk]
  | wI64Arr k2 a n =>
    simp [applyWOp, cblu_docw_set_i64_array] at h
    by_cases hk : k2 = k
    · subst hk; rw [← h]; simp [wopVal, alookup_aset_self]
    · rw [← h]; simp [wopVal, hk, alookup_aset_ne _ _ _ _ hk]
  | wDict k2 sub =>
    simp [applyWOp] at h
    by_cases hk : k2 = k
    · subst hk; rw [← h]; simp [wopVal, alookup_aset_self]
    · rw [← h]; simp [wopVal, hk, alookup_aset_ne _ _ _ _ hk]
  | wArr k2 sub =>
    simp [applyWOp] at h
    by_cases hk : k2 = k
    · subst hk; rw [← h]; simp [wopVal, alookup_aset_self]
    · rw [← h]; simp [wopVal, hk, alookup_aset_ne _ _ _ _ hk]

theorem lastSetVal_loop (k : String) :
    ∀ (ops : List WOp) (acc : Option FLVal),
      ops.foldl (fun a op => match wopVal op k with | some v => some v | none => a) acc =
        (match lastSetVal ops k with
         | some v => some v
         | none => acc) := by
  intro ops
  induction ops with
  | nil => intro acc; simp [lastSetVal]
  | cons op t ih =>
    intro acc
    have hL := ih (match wopVal op k with | some v => some v | none => acc)
    have hR := ih (match wopVal op k with | some v => some v | none => none)
    rw [List.foldl_cons, hL]
    rw [show lastSetVal (op :: t) k =
          t.foldl (fun a op => match wopVal op k with | some v => some v | none => a)
            (match wopVal op k with | some v => some v | none => none) from rfl, hR]
    cases hlst : lastSetVal t k with
    | some v => rfl
    | none => cases wopVal op k <;> rfl

theorem buildFold_some (ops : List WOp) :
    ∀ dw : DocW, ∃ dw2, ops.foldl applyWOp (some dw) = some dw2 ∧ dw2.docId = dw.docId := by
  induction ops with
  | nil => intro dw; exact ⟨dw, rfl, rfl⟩
  | cons op t ih =>
    intro dw
    obtain ⟨dw1, h1, hid1⟩ := applyWOp_some dw op
    obtain ⟨dw2, h2, hid2⟩ := ih dw1
    exact ⟨dw2, by rw [List.foldl_cons, h1]; exact h2, by rw [hid2, hid1]⟩

theorem buildFold_lookup (ops : List WOp) :
    ∀ (dw dw2 : DocW) (k : String), ops.foldl applyWOp (some dw) = some dw2 →
      alookup dw2.props k =
        (match lastSetVal ops k with
         | some v => some v
         | none => alookup dw.props k) := by
  induction ops with
  | nil =>
    intro dw dw2 k h
    simp at h
    subst h
    simp [lastSetVal]
  | cons op t ih =>
    intro dw dw2 k h
    obtain ⟨dw1, h1, _⟩ := applyWOp_some dw op
    rw [List.foldl_cons, h1] at h
    have hrec := ih dw1 dw2 k h
    have hstep := applyWOp_lookup dw dw1 op k h1
    rw [hrec, hstep]
    rw [show lastSetVal (op :: t) k =
          t.foldl (fun a op => match wopVal op k with | some v => some v | none => a)
            (match wopVal op k with | some v => some v | none => none) from rfl,
        lastSetVal_loop k t]
    cases hlst : lastSetVal t k with
    | some v => rfl
    | none => cases wopVal op k <;> rfl

theorem buildSubArr_map (sub : List AOp) : buildSubArr sub = sub.map aopVal := by
  have h : ∀ (s : List AOp) (l : List FLVal),
      s.foldl applyAOp (some l) = some (l ++ s.map aopVal) := by
    intro s
    induction s with
    | nil => intro l; simp
    | cons a t ih =>
      intro l
      have : applyAOp (some l) a = some (l ++ [aopVal a]) := by
        cases a <;> rfl
      rw [List.foldl_cons, this, ih]
      simp
  unfold buildSubArr
  rw [h sub []]
  simp

/-- C2: for every reader, key and output cell, each scalar typed getter
(getInt64 / getUInt64 / getFloat64 / getBool) returns true and writes the
cell only when the stored value's type matches (any numeric type for the
numeric getters; boolean or numeric for getBool, coerced to truthiness);
otherwise (key absent or wrong type) it returns false and leaves the cell
entirely unmodified. -/
theorem claim_C2 (dr : DocR) (k : String) (xi : Int) (xu : Nat) (xf : Nat) (xb : Bool) :
    C2Spec dr k xi xu xf xb := by
  unfold C2Spec
  refine ⟨?_, ?_, ?_, ?_, ?_⟩
  · cases hv : alookup dr.props k with
    | none => simp [cblu_docr_get_i64, hv]
    | some v => cases v <;> simp [cblu_docr_get_i64, hv, isNumberV]
  · cases hv : alookup dr.props k with
    | none => simp [cblu_docr_get_u64, hv]
    | some v => cases v <;> simp [cblu_docr_get_u64, hv, isNumberV]
  · cases hv : alookup dr.props k with
    | none => simp [cblu_docr_get_f64, hv]
    | some v => cases v <;> simp [cblu_docr_get_f64, hv, isNumberV]
  · cases hv : alookup dr.props k with
    | none => simp [cblu_docr_get_bool, hv]
    | some v => cases v <;> simp [cblu_docr_get_bool, hv, flAsBool]
  · cases hv : alookup dr.props k with
    | none => simp [cblu_docr_get_i64, hv, fl_is_number]
    | some v => cases v <;> simp [cblu_docr_get_i64, hv, isNumberV, fl_is_number]

/-- Witness for C2 at a concrete reader: key "n" holds the integer 5, the
out-cells are preseeded with sentinels. -/
theorem claim_C2_witness :
    C2Spec ⟨[("n", FLVal.vNum (FLNumRep.nInt 5))]⟩ "n" 7 7 7 false :=
  claim_C2 ⟨[("n", FLVal.vNum (FLNumRep.nInt 5))]⟩ "n" 7 7 7 false

/-- C9: every reader accessor is defensively total in its pointer
arguments: a NULL reader, key or principal output pointer, or a zero
destination capacity/count, makes the call return false or 0 and write
nothing through any pointer. -/
theorem claim_C9 : C9Spec := by
  unfold C9Spec
  refine ⟨?_, ?_, ?_, ?_, ?_, ?_, ?_, ?_, ?_⟩
  · intro d k h
    cases d <;> cases k <;> simp_all [cblu_docr_has]
  · intro d k out h
    cases d <;> cases k <;> cases out <;> simp_all [cblu_docr_get_i64]
  · intro d k out h
    cases d <;> cases k <;> cases out <;> simp_all [cblu_docr_get_u64]
  · intro d k out h
    cases d <;> cases k <;> cases out <;> simp_all [cblu_docr_get_f64]
  · intro d k out h
    cases d <;> cases k <;> cases out <;> simp_all [cblu_docr_get_bool]
  · intro d k dst sz h
    cases d <;> cases k <;> cases dst <;> simp_all [cblu_docr_get_str]
  · intro d k out mx h
    cases d <;> cases k <;> cases out <;> simp_all [cblu_docr_get_f64_array]
  · intro d k out mx h
    cases d <;> cases k <;> cases out <;> simp_all [cblu_docr_get_i64_array]
  · intro d k dst sz ctd ctsz h
    cases d <;> cases k <;> cases dst <;> simp_all [cblu_docr_get_blob]

/-- Witness for C9: a NULL reader with a preseeded out-cell is left
untouched by getInt64, and a zero capacity leaves getString's buffer
untouched. -/
theorem claim_C9_witness :
    cblu_docr_get_i64 none (some "k") (some 5) = (false, some 5) ∧
    cblu_docr_get_str (some ⟨[]⟩) (some "k") (some [9]) 0 = (0, some [9]) :=
  ⟨claim_C9.2.1 none (some "k") (some 5) (Or.inl rfl),
   claim_C9.2.2.2.2.2.1 (some ⟨[]⟩) (some "k") (some [9]) 0
     (Or.inr (Or.inr (Or.inr rfl)))⟩

/-- C10: the convenience teardown cblu_session_end is definitionally
end-with-commit: it equals cblu_session_end_txn with commit = true for all
arguments, so on a live transactional session with a successful engine end
the staged writes are applied, not discarded. -/
theorem claim_C10 : C10Spec := by
  unfold C10Spec
  constructor
  · intro fx w p
    rfl
  · intro fx w p ov hp hp0 hst hok
    unfold cblu_session_end cblu_session_end_txn
    rw [if_neg hp0]
    simp only [hp]
    simp only [hok, if_true]
    refine ⟨_, rfl, ?_, ?_⟩
    · simp [engineEndTxn, hst]
    · simp [engineEndTxn]

/-- Witness for C10 on the concrete transactional world txnSessW: ending
the session commits the staged document "d". -/
theorem claim_C10_witness :
    cblu_session_end fxAll txnSessW 1 = cblu_session_end_txn fxAll txnSessW 1 true ∧
    ∃ w2, cblu_session_end fxAll txnSessW 1 = some w2 ∧
      w2.eng.committed =
        applyOverlay [("d", [("x", FLVal.vNum (FLNumRep.nInt 1))])] txnSessW.eng.committed ∧
      w2.eng.staged = none :=
  ⟨claim_C10.1 fxAll txnSessW 1,
   claim_C10.2 fxAll txnSessW 1 [("d", [("x", FLVal.vNum (FLNumRep.nInt 1))])]
     rfl (by decide) rfl rfl⟩

/-- C6 counterexample: the claim asserts that a transaction-end failure is
surfaced to the caller via return status.  cblu_session_end_txn is a void C
function: it has no status return.  On the concrete transactional session
of txnSessW, the call with a failing engine end completes exactly like the
successful one (both return normally, free the session, and end the
transaction once); the only record of the failure is the stderr log line —
there is no return status to surface it through. -/
theorem claim_C6_counterexample :
    cblu_session_end_txn fxEndFail txnSessW 1 true = some c6wFail ∧
    cblu_session_end_txn fxAll txnSessW 1 true = some c6wOk ∧
    heapGet c6wFail 1 = none ∧ heapGet c6wOk 1 = none ∧
    c6wFail.events = [Ev.evEndTxn true] ∧ c6wOk.events = [Ev.evEndTxn true] ∧
    c6wFail.log = ["CBL end txn failed"] ∧ c6wOk.log = [] := by
  refine ⟨rfl, rfl, rfl, rfl, rfl, rfl, rfl, rfl⟩

/-- C6 (amended): end(session, commit) ends an active transaction exactly
once with the requested outcome, never ends a transaction when none is
active, and always frees the session regardless of the engine outcome; an
engine end-transaction failure is reported only on the diagnostic stderr
log (the function returns void), and is not retried. -/
theorem claim_C6 (fx : EngineFx) (w : World) (p : Ptr) (commit tA : Bool)
    (hp : heapGet w p = some (Obj.session tA)) (hp0 : p ≠ 0) :
    C6Spec fx w p commit tA := by
  unfold C6Spec cblu_session_end_txn
  rw [if_neg hp0]
  simp only [hp]
  cases tA with
  | false =>
    refine ⟨_, rfl, rfl, ?_, ?_, ?_, ?_⟩
    · intro h; cases h
    · intro _; exact ⟨rfl, rfl, rfl⟩
    · intro h; cases h
    · intro h; cases h
  | true =>
    cases hok : fx.endTxnOk with
    | true =>
      refine ⟨_, rfl, rfl, fun _ => rfl, ?_, ?_, ?_⟩
      · intro h; cases h
      · intro _ _; exact ⟨rfl, rfl⟩
      · intro _ h; cases h
    | false =>
      refine ⟨_, rfl, rfl, fun _ => rfl, ?_, ?_, ?_⟩
      · intro h; cases h
      · intro _ h; cases h
      · intro _ _; rfl

/-- Witness for C6 on the concrete transactional session of txnSessW with a
failing engine end. -/
theorem claim_C6_witness : C6Spec fxEndFail txnSessW 1 true true :=
  claim_C6 fxEndFail txnSessW 1 true true rfl (by decide)

/-- C7: resource acquisition is all-or-nothing: a failed open (engine open
failure or missing default collection) restores every acquired reference
and allocates nothing before reporting failure; a successful open returns a
fully initialized handle; and a transactional session whose engine
transaction cannot begin is freed again, leaving heap and engine state
untouched and returning NULL. -/
theorem claim_C7 (fx : EngineFx) (w : World) (nm dir : Option String) :
    C7Spec fx w nm dir := by
  unfold C7Spec
  refine ⟨?_, ?_, ?_⟩
  · intro hnone
    cases nm with
    | none => exact ⟨rfl, rfl, rfl, rfl⟩
    | some s =>
      cases hopen : fx.openOk with
      | false =>
        simp only [cblu_open, hopen, if_false]
        exact ⟨rfl, rfl, rfl, rfl⟩
      | true =>
        cases hcoll : fx.defaultCollOk with
        | false =>
          simp only [cblu_open, hopen, hcoll, if_true, if_false]
          refine ⟨?_, rfl, rfl, rfl⟩
          simp
        | true =>
          simp only [cblu_open, hopen, hcoll, if_true] at hnone
          cases hnone
  · intro q hq
    cases nm with
    | none => cases hq
    | some s =>
      cases hopen : fx.openOk with
      | false => simp only [cblu_open, hopen, if_false] at hq; cases hq
      | true =>
        cases hcoll : fx.defaultCollOk with
        | false => simp only [cblu_open, hopen, hcoll, if_true, if_false] at hq; cases hq
        | true =>
          simp only [cblu_open, hopen, hcoll, if_true] at hq ⊢
          have hq2 : q = w.nextPtr := by
            cases hq
            rfl
          subst hq2
          simp [heapGet, plookup]
  · intro db hc hd hdb hdb0 hfb
    unfold cblu_session_begin_txn
    rw [if_neg hdb0]
    simp only [hdb]
    simp [hfb]

/-- Witness for C7: concrete failed open (default collection missing) on
the fresh world w0, and a failed transactional session begin on a world
with a live database handle at pointer 1. -/
theorem claim_C7_witness :
    C7Spec ⟨true, false, true, true, true⟩ w0 (some "orders") none ∧
    C7Spec fxBeginFail c8w1 (some "orders") none :=
  ⟨claim_C7 ⟨true, false, true, true, true⟩ w0 (some "orders") none,
   claim_C7 fxBeginFail c8w1 (some "orders") none⟩

theorem premove_id (l : List (Ptr × Obj)) (p : Ptr) (h : ∀ e ∈ l, e.1 ≠ p) :
    premove l p = l := by
  induction l with
  | nil => rfl
  | cons e t ih =>
    have he : e.1 ≠ p := h e (by simp)
    simp [premove, he]
    have := ih (fun e2 he2 => h e2 (by simp [he2]))
    simpa [premove] using this

theorem plookup_none (l : List (Ptr × Obj)) (p : Ptr) (h : ∀ e ∈ l, e.1 ≠ p) :
    plookup l p = none := by
  induction l with
  | nil => rfl
  | cons e t ih =>
    obtain ⟨q, o⟩ := e
    have hq : q ≠ p := h (q, o) (by simp)
    simp [plookup, hq]
    exact ih (fun e2 he2 => h e2 (by simp [he2]))

/-- C8 counterexample: the claim asserts that calling close a second time
on the same handle is a no-op with no ill effect.  On the fresh world w0,
open succeeds yielding handle 1; the first close frees it; the second close
on the same pointer dereferences and frees an already-freed handle — a
double free, which is undefined behavior (modeled as none), not a no-op. -/
theorem claim_C8_counterexample :
    cblu_open fxAll w0 (some "orders") none = (c8w1, some 1) ∧
    cblu_close c8w1 1 = some c8w2 ∧
    cblu_close c8w2 1 = none := by
  refine ⟨rfl, rfl, rfl⟩

/-- C8 (amended): close on a NULL handle is a no-op; after any successful
open, close releases the collection reference strictly before closing and
releasing the database (event order), restores both reference counts and
the heap to their pre-open state, and frees the handle; a second close on
the same non-NULL handle is a double free (undefined behavior), not a
no-op. -/
theorem claim_C8 (fx : EngineFx) (w w1 : World) (nm dir : Option String) (p : Ptr)
    (hwf : 0 < w.nextPtr) (hfresh : ∀ e ∈ w.heap, e.1 < w.nextPtr)
    (hopen : cblu_open fx w nm dir = (w1, some p)) : C8Spec w w1 p := by
  cases nm with
  | none => cases hopen
  | some s =>
    cases hopen2 : fx.openOk with
    | false =>
      simp only [cblu_open, hopen2, if_false] at hopen
      cases hopen
    | true =>
      cases hcoll : fx.defaultCollOk with
      | false =>
        simp only [cblu_open, hopen2, hcoll, if_true, if_false] at hopen
        cases hopen
      | true =>
        simp only [cblu_open, hopen2, hcoll, if_true] at hopen
        rw [Prod.mk.injEq] at hopen
        obtain ⟨hw1, hp⟩ := hopen
        have hp2 : w.nextPtr = p := Option.some.inj hp
        subst hw1
        subst hp2
        have hp0 : w.nextPtr ≠ 0 := Nat.pos_iff_ne_zero.mp hwf
        have hne : ∀ e ∈ w.heap, e.1 ≠ w.nextPtr := fun e he => Nat.ne_of_lt (hfresh e he)
        have hprem : premove ((w.nextPtr, Obj.dbHandle true true) :: w.heap) w.nextPtr
            = w.heap := by
          have h2 := premove_id w.heap w.nextPtr hne
          simpa [premove] using h2
        constructor
        · intro v
          simp [cblu_close]
        · refine ⟨⟨w.eng, w.dbRefs, w.collRefs, w.heap, w.nextPtr + 1,
              w.events ++ [Ev.evOpenDb, Ev.evGetDefaultColl, Ev.evReleaseColl,
                Ev.evCloseDb, Ev.evReleaseDb], w.log⟩, ?_, rfl, rfl, rfl, rfl, ?_⟩
          · unfold cblu_close
            rw [if_neg hp0]
            simp only [heapGet, plookup, if_pos rfl, if_true]
            rw [show premove ((w.nextPtr, Obj.dbHandle true true) :: w.heap) w.nextPtr
                  = w.heap from hprem]
            simp
          · unfold cblu_close
            rw [if_neg hp0]
            simp only [heapGet]
            rw [plookup_none _ _ hne]

/-- Witness for C8 on the fresh world w0: the successful open yields handle
1 and close then behaves as amended. -/
theorem claim_C8_witness : C8Spec w0 c8w1 1 :=
  claim_C8 fxAll w0 c8w1 (some "orders") none 1 (by decide) (by simp [w0]) rfl

/-- C1: a document built through a Writer by any sequence of setter and
builder actions and saved successfully is observed by a fresh Reader
(fetched through the session afterwards) with exactly the writer's
property dictionary — every field set is present with the last value and
type stored for it, and array fields hold their elements in append /
supply order — while a Reader fetched before the save sees exactly the
pre-save engine content. -/
theorem claim_C1 (fx : EngineFx) (w : World) (p : Ptr) (id : String) (ops : List WOp)
    (tA : Bool) (hp : heapGet w p = some (Obj.session tA)) (hp0 : p ≠ 0)
    (hsave : fx.saveOk = true) : C1Spec fx w p id ops := by
  obtain ⟨dw, hfold, hid⟩ := buildFold_some ops ⟨id, []⟩
  have hpl : plookup w.heap p = some (Obj.session tA) := hp
  refine ⟨⟨id, []⟩, dw, ?_, hfold, ?_, ?_, ?_, buildSubArr_map, ?_⟩
  · simp [cblu_docw_begin, hp0]
  · simp [cblu_docw_save, hsave]
  · simp only [cblu_docw_save, hsave, if_true]
    simp [cblu_docr_get, hp0, heapGet, hpl, hid, engineGetDoc_save]
  · intro k v hlast
    have h2 := buildFold_lookup ops ⟨id, []⟩ dw k hfold
    rw [h2, hlast]
  · simp [cblu_docr_get, hp0, heapGet, hpl]

/-- Witness for C1: through the live session of sessW, a writer sets a
string, a float64 array and an appended array on document "order-1" and
saves. -/
theorem claim_C1_witness :
    C1Spec fxAll sessW 1 "order-1"
      [WOp.wStr "status" (some [112, 101, 110, 100, 105, 110, 103]),
       WOp.wF64Arr "totals" (some [10, 20]) 2,
       WOp.wArr "tags" [AOp.aI64 3, AOp.aBool true]] :=
  claim_C1 fxAll sessW 1 "order-1"
    [WOp.wStr "status" (some [112, 101, 110, 100, 105, 110, 103]),
     WOp.wF64Arr "totals" (some [10, 20]) 2,
     WOp.wArr "tags" [AOp.aI64 3, AOp.aBool true]] false rfl (by decide) rfl

/-- C3 counterexample: the claim asserts the destination is NUL-terminated
on every call (with an empty string written on failure).  On the call with
destination capacity 0 against a reader whose key "k" does hold a string,
the defensive guard returns 0 without touching the destination: the buffer
still holds [7, 7], which contains no NUL at all. -/
theorem claim_C3_counterexample :
    cblu_docr_get_str (some c3dr) (some "k") (some [7, 7]) 0 = (0, some [7, 7]) ∧
    hasNulWithin [7, 7] 2 = false := by
  refine ⟨rfl, rfl⟩

/-- C3 (amended): on every call that passes the defensive argument guard
(non-NULL reader, key and destination, capacity at least 1), getString
copies at most dstCapacity - 1 bytes of the stored string, never changes
anything at or beyond index dstCapacity, NUL-terminates the destination at
index bytesWritten, returns the byte count excluding the terminator, and
writes an empty string returning 0 when the key is absent or not a string;
calls failing the guard return 0 and leave the destination untouched. -/
theorem claim_C3 (dr : DocR) (k : String) (buf : List Nat) (sz : Nat)
    (h1 : 1 ≤ sz) (h2 : sz ≤ buf.length) : C3Spec dr k buf sz := by
  have hsz0 : sz ≠ 0 := by omega
  have hb1 : 1 ≤ buf.length := by omega
  unfold C3Spec
  refine ⟨?_, ?_, ?_⟩
  · cases hv : alookup dr.props k with
    | some v =>
      cases v with
      | vStr s =>
        have hcall : cblu_docr_get_str (some dr) (some k) (some buf) sz =
            (if s.length < sz - 1 then s.length else sz - 1,
             some (writeFront buf
               (s.take (if s.length < sz - 1 then s.length else sz - 1) ++ [0]))) := by
          simp [cblu_docr_get_str, hsz0, hv]
        rw [hcall]
        set n := if s.length < sz - 1 then s.length else sz - 1 with hn
        have hnmin : n = min s.length (sz - 1) := by rw [hn]; split <;> omega
        have hns : n ≤ s.length := by omega
        have hnsz : n + 1 ≤ sz := by omega
        have htl : (s.take n).length = n := by simp [Nat.min_eq_left hns]
        have hdl : (s.take n ++ [0]).length = n + 1 := by simp [htl]
        have hbuf2 : writeFront buf (s.take n ++ [0]) = s.take n ++ 0 :: buf.drop (n + 1) := by
          unfold writeFront
          rw [hdl, List.append_assoc]
          rfl
        refine ⟨writeFront buf (s.take n ++ [0]), rfl, hnsz, ?_, ?_, ?_, hnmin, ?_⟩
        · exact writeFront_length _ _ (by rw [hdl]; omega)
        · exact writeFront_drop _ _ _ (by rw [hdl]; omega)
        · rw [hbuf2]
          have hget := getD_append_len 1 (s.take n) 0 (buf.drop (n + 1))
          rw [htl] at hget
          exact hget
        · rw [hbuf2]
          have htk := take_append_len (s.take n) (0 :: buf.drop (n + 1))
          rw [htl] at htk
          rw [htk]
      | vNull =>
        have hcall : cblu_docr_get_str (some dr) (some k) (some buf) sz =
            (0, some (writeFront buf [0])) := by simp [cblu_docr_get_str, hsz0, hv]
        rw [hcall]
        exact ⟨writeFront buf [0], rfl, h1, writeFront_length _ _ (by simpa using hb1),
          writeFront_drop _ _ _ (by simpa using h1), rfl, rfl, rfl⟩
      | vBool b =>
        have hcall : cblu_docr_get_str (some dr) (some k) (some buf) sz =
            (0, some (writeFront buf [0])) := by simp [cblu_docr_get_str, hsz0, hv]
        rw [hcall]
        exact ⟨writeFront buf [0], rfl, h1, writeFront_length _ _ (by simpa using hb1),
          writeFront_drop _ _ _ (by simpa using h1), rfl, rfl, rfl⟩
      | vNum n2 =>
        have hcall : cblu_docr_get_str (some dr) (some k) (some buf) sz =
            (0, some (writeFront buf [0])) := by simp [cblu_docr_get_str, hsz0, hv]
        rw [hcall]
        exact ⟨writeFront buf [0], rfl, h1, writeFront_length _ _ (by simpa using hb1),
          writeFront_drop _ _ _ (by simpa using h1), rfl, rfl, rfl⟩
      | vArr xs =>
        have hcall : cblu_docr_get_str (some dr) (some k) (some buf) sz =
            (0, some (writeFront buf [0])) := by simp [cblu_docr_get_str, hsz0, hv]
        rw [hcall]
        exact ⟨writeFront buf [0], rfl, h1, writeFront_length _ _ (by simpa using hb1),
          writeFront_drop _ _ _ (by simpa using h1), rfl, rfl, rfl⟩
      | vDict es =>
        have hcall : cblu_docr_get_str (some dr) (some k) (some buf) sz =
            (0, some (writeFront buf [0])) := by simp [cblu_docr_get_str, hsz0, hv]
        rw [hcall]
        exact ⟨writeFront buf [0], rfl, h1, writeFront_length _ _ (by simpa using hb1),
          writeFront_drop _ _ _ (by simpa using h1), rfl, rfl, rfl⟩
      | vBlob ct c =>
        have hcall : cblu_docr_get_str (some dr) (some k) (some buf) sz =
            (0, some (writeFront buf [0])) := by simp [cblu_docr_get_str, hsz0, hv]
        rw [hcall]
        exact ⟨writeFront buf [0], rfl, h1, writeFront_length _ _ (by simpa using hb1),
          writeFront_drop _ _ _ (by simpa using h1), rfl, rfl, rfl⟩
    | none =>
      have hcall : cblu_docr_get_str (some dr) (some k) (some buf) sz =
          (0, some (writeFront buf [0])) := by simp [cblu_docr_get_str, hsz0, hv]
      rw [hcall]
      exact ⟨writeFront buf [0], rfl, h1, writeFront_length _ _ (by simpa using hb1),
        writeFront_drop _ _ _ (by simpa using h1), rfl, rfl, rfl⟩
  · intro d2 k2 dst2
    cases d2 <;> cases k2 <;> cases dst2 <;> simp [cblu_docr_get_str]
  · intro k2 dst2 sz2
    cases k2 <;> cases dst2 <;> simp [cblu_docr_get_str]

/-- Witness for C3: key "k" of c3dr holds the two-byte string [104, 105],
read into a four-byte buffer preseeded with 9s at capacity 4. -/
theorem claim_C3_witness : C3Spec c3dr "k" [9, 9, 9, 9] 4 :=
  claim_C3 c3dr "k" [9, 9, 9, 9] 4 (by decide) (by decide)

/-- C4: getFloat64Array and getInt64Array return 0 with untouched buffers
for absent or non-array keys; otherwise they copy exactly min(storedCount,
maxCount) elements from the front of the stored array in stored order,
coercing non-numeric elements to zero, leave the rest of the buffer
untouched, and return that count. -/
theorem claim_C4 (dr : DocR) (k : String) (bufF : List Nat) (bufI : List Int) (maxn : Nat)
    (hF : maxn ≤ bufF.length) (hI : maxn ≤ bufI.length) : C4Spec dr k bufF bufI maxn := by
  unfold C4Spec
  by_cases hm : maxn = 0
  · subst hm
    cases hv : alookup dr.props k with
    | some v =>
      cases v <;>
        simp [cblu_docr_get_f64_array, cblu_docr_get_i64_array, hv]
    | none =>
      simp [cblu_docr_get_f64_array, cblu_docr_get_i64_array, hv]
  · cases hv : alookup dr.props k with
    | some v =>
      cases v with
      | vArr xs =>
        have hn : (if maxn < xs.length then maxn else xs.length) = min xs.length maxn := by
          split <;> omega
        have hn1 : min xs.length maxn ≤ xs.length := by omega
        have hnF : min xs.length maxn ≤ bufF.length := by omega
        have hnI : min xs.length maxn ≤ bufI.length := by omega
        have hcF : cblu_docr_get_f64_array (some dr) (some k) (some bufF) maxn =
            (min xs.length maxn,
             some (copyLoop xs (fun it => if isNumberV it then flAsDouble it else 0)
               (min xs.length maxn) bufF)) := by
          simp [cblu_docr_get_f64_array, hm, hv, hn]
        have hcI : cblu_docr_get_i64_array (some dr) (some k) (some bufI) maxn =
            (min xs.length maxn,
             some (copyLoop xs (fun it => if isNumberV it then flAsInt it else 0)
               (min xs.length maxn) bufI)) := by
          simp [cblu_docr_get_i64_array, hm, hv, hn]
        rw [hcF, hcI]
        refine ⟨rfl, ?_, rfl, ?_⟩
        · rw [copyLoop_spec xs _ (min xs.length maxn) bufF hn1 hnF]
        · rw [copyLoop_spec xs _ (min xs.length maxn) bufI hn1 hnI]
      | vNull => simp [cblu_docr_get_f64_array, cblu_docr_get_i64_array, hv, hm]
      | vBool b => simp [cblu_docr_get_f64_array, cblu_docr_get_i64_array, hv, hm]
      | vNum n2 => simp [cblu_docr_get_f64_array, cblu_docr_get_i64_array, hv, hm]
      | vStr s => simp [cblu_docr_get_f64_array, cblu_docr_get_i64_array, hv, hm]
      | vDict es => simp [cblu_docr_get_f64_array, cblu_docr_get_i64_array, hv, hm]
      | vBlob ct c => simp [cblu_docr_get_f64_array, cblu_docr_get_i64_array, hv, hm]
    | none => simp [cblu_docr_get_f64_array, cblu_docr_get_i64_array, hv, hm]

/-- Witness for C4: a stored three-element array (two doubles around a
non-numeric string, which coerces to zero) read into preseeded two-slot
buffers with maxCount 2. -/
theorem claim_C4_witness :
    C4Spec ⟨[("a", FLVal.vArr [FLVal.vNum (FLNumRep.nDbl 11), FLVal.vStr [],
      FLVal.vNum (FLNumRep.nInt 2)])]⟩ "a" [5, 5] [6, 6] 2 :=
  claim_C4 ⟨[("a", FLVal.vArr [FLVal.vNum (FLNumRep.nDbl 11), FLVal.vStr [],
      FLVal.vNum (FLNumRep.nInt 2)])]⟩ "a" [5, 5] [6, 6] 2 (by decide) (by decide)

/-- C5: getBlob returns 0 when the key is absent, not a blob, or the blob
content is empty; otherwise it fills the content-type buffer (truncated,
NUL-terminated) when one with nonzero capacity is supplied, copies exactly
min(blobSize, dstCapacity) content bytes, and returns that count; passing
no content-type buffer changes nothing else. -/
theorem claim_C5 (dr : DocR) (k : String) (buf : List Nat) (sz : Nat)
    (ctbuf : List Nat) (ctsz : Nat) (hsz : 1 ≤ sz) : C5Spec dr k buf sz ctbuf ctsz := by
  have hsz0 : sz ≠ 0 := by omega
  unfold C5Spec
  cases hb : (alookup dr.props k).bind flAsBlob with
  | none =>
    simp [cblu_docr_get_blob, hsz0, hb]
  | some pb =>
    obtain ⟨ct, content⟩ := pb
    have hm : (if ct.length < ctsz - 1 then ct.length else ctsz - 1)
        = min ct.length (ctsz - 1) := by split <;> omega
    have hmct : min ct.length (ctsz - 1) ≤ ct.length := by omega
    have htct : (ct.take (min ct.length (ctsz - 1))).length = min ct.length (ctsz - 1) := by
      simp [Nat.min_eq_left hmct]
    have hlct : (ct.take (min ct.length (ctsz - 1)) ++ [0]).length
        = min ct.length (ctsz - 1) + 1 := by simp [htct]
    have hctW : writeFront ctbuf (ct.take (min ct.length (ctsz - 1)) ++ [0]) =
        (ct.take (min ct.length (ctsz - 1)) ++ [0])
          ++ ctbuf.drop (min ct.length (ctsz - 1) + 1) := by
      unfold writeFront
      rw [hlct]
    dsimp only
    by_cases hc : content.length = 0
    · have hcall : cblu_docr_get_blob (some dr) (some k) (some buf) sz (some ctbuf) ctsz =
          (0, some buf,
           if 0 < ctsz then
             some (writeFront ctbuf (ct.take (min ct.length (ctsz - 1)) ++ [0]))
           else some ctbuf) := by
        by_cases hct : 0 < ctsz <;>
          simp [cblu_docr_get_blob, hsz0, hb, hc, hct, hm]
      have hcall2 : cblu_docr_get_blob (some dr) (some k) (some buf) sz none ctsz =
          (0, some buf, none) := by
        simp [cblu_docr_get_blob, hsz0, hb, hc]
      rw [hcall, hcall2]
      refine ⟨?_, ?_, fun _ => ⟨rfl, rfl⟩, ?_, ?_⟩
      · intro hct
        rw [if_pos hct, hctW]
      · intro hct
        rw [if_neg (by omega)]
      · intro hpos
        omega
      · rfl
    · have hnc : (if content.length < sz then content.length else sz)
          = min content.length sz := by split <;> omega
      have hncc : min content.length sz ≤ content.length := by omega
      have htc : (content.take (min content.length sz)).length = min content.length sz := by
        simp [Nat.min_eq_left hncc]
      have hW : writeFront buf (content.take (min content.length sz)) =
          content.take (min content.length sz) ++ buf.drop (min content.length sz) := by
        unfold writeFront
        rw [htc]
      have hcall : cblu_docr_get_blob (some dr) (some k) (some buf) sz (some ctbuf) ctsz =
          (min content.length sz,
           some (writeFront buf (content.take (min content.length sz))),
           if 0 < ctsz then
             some (writeFront ctbuf (ct.take (min ct.length (ctsz - 1)) ++ [0]))
           else some ctbuf) := by
        by_cases hct : 0 < ctsz <;>
          simp [cblu_docr_get_blob, hsz0, hb, hc, hct, hm, hnc]
      have hcall2 : cblu_docr_get_blob (some dr) (some k) (some buf) sz none ctsz =
          (min content.length sz,
           some (writeFront buf (content.take (min content.length sz))), none) := by
        simp [cblu_docr_get_blob, hsz0, hb, hc, hnc]
      rw [hcall, hcall2]
      refine ⟨?_, ?_, ?_, fun _ => ⟨rfl, ?_⟩, ?_⟩
      · intro hct
        rw [if_pos hct, hctW]
      · intro hct
        rw [if_neg (by omega)]
      · intro h0
        omega
      · rw [hW]
      · rfl

/-- Witness for C5: a stored blob with one-byte content type and three
content bytes, read into a two-byte destination (truncating to 2) with a
two-byte content-type buffer. -/
theorem claim_C5_witness :
    C5Spec ⟨[("b", FLVal.vBlob [116] [1, 2, 3])]⟩ "b" [0, 0] 2 [9, 9] 2 :=
  claim_C5 ⟨[("b", FLVal.vBlob [116] [1, 2, 3])]⟩ "b" [0, 0] 2 [9, 9] 2 (by decide)

end CBLiteC
